import Mathlib

/-!
Verification of the weather_api repository (src/main.py) against its
natural-language specification.

The embedding models:
* `WeatherData` and `WeatherData.to_dict` (src/main.py lines 9-27); Python
  floats are embedded as exact rationals (ℚ), `datetime` values as opaque
  integers.
* `pandas.DataFrame.sort_values(col, ascending, kind='quicksort')` for a
  single numeric key column, as used on lines 76 and 79.  pandas computes
  `nargsort(values, kind='quicksort', ascending)` (pandas/core/sorting.py)
  and permutes the rows by the resulting indexer.  With no NaN present,
  `nargsort` is: for ascending order, `values.argsort(kind='quicksort')`;
  for descending order, reverse the values and the index array, argsort,
  re-map, and reverse the result.
* `numpy.argsort(kind='quicksort')` for float64, which is the introsort
  `aquicksort` of numpy's npysort/quicksort.c.src: median-of-3 Hoare
  partitioning down to ranges of at most SMALL_QUICKSORT = 15 elements,
  an explicit stack of pending ranges, a depth limit of 2*floor(log2 n)
  with heapsort (`aheapsort`) fallback, and a final insertion sort for the
  small ranges.  The C loops are translated one-for-one; the unbounded
  `for(;;)` loops carry an explicit fuel that is large enough for every
  actual run (fuel exhaustion returns the current state and is unreachable
  for the inputs considered in the theorems below).
* `DataFrame.describe()` (line 89) per its documented semantics: count,
  mean, sample standard deviation (ddof = 1), min, linearly interpolated
  quartiles, max.  The standard deviation is the real square root of the
  sample variance; since square roots of rationals are irrational in
  general, the embedding carries the sample variance (`var`, the square of
  the reported std) and "std is undefined/NaN" corresponds to `var = none`.
* boolean-mask filtering `df[df['temperature_c'] > t]` (line 145),
  the fetch orchestration (lines 29-65) over an abstract network
  environment, and `process_weather_data` (lines 67-133) with the purely
  presentational side effects (print, CSV, matplotlib) omitted.
-/

namespace WeatherApi

/-- Decidable equality of `Except` values (component-wise). -/
instance exceptDecEq {ε α : Type} [DecidableEq ε] [DecidableEq α] :
    DecidableEq (Except ε α) := fun a b =>
  match a, b with
  | .error x, .error y =>
    match decEq x y with
    | isTrue h => isTrue (by rw [h])
    | isFalse h => isFalse (fun hc => by injection hc; contradiction)
  | .error _, .ok _ => isFalse (fun hc => Except.noConfusion hc)
  | .ok _, .error _ => isFalse (fun hc => Except.noConfusion hc)
  | .ok x, .ok y =>
    match decEq x y with
    | isTrue h => isTrue (by rw [h])
    | isFalse h => isFalse (fun hc => by injection hc; contradiction)

/-- The `WeatherData` dataclass of src/main.py (lines 9-15): `city`,
`temperature` (°C), `wind_speed` (m/s), `humidity` (%), `timestamp`.
Floats are embedded as ℚ, the datetime as an opaque integer. -/
structure WeatherData where
  city : String
  temperature : ℚ
  wind_speed : ℚ
  humidity : ℚ
  timestamp : Int
deriving DecidableEq, Repr

instance : Inhabited WeatherData := ⟨⟨"", 0, 0, 0, 0⟩⟩

/-- A row of the DataFrame built from `WeatherData.to_dict` dictionaries
(src/main.py lines 17-27): one field per dictionary key. -/
structure Row where
  city : String
  temperature_c : ℚ
  temperature_f : ℚ
  wind_speed_ms : ℚ
  wind_speed_mph : ℚ
  humidity : ℚ
  timestamp : Int
deriving DecidableEq, Repr

instance : Inhabited Row := ⟨⟨"", 0, 0, 0, 0, 0, 0⟩⟩

/-- The fixed multiplicative factor 2.23694 used on line 24 for the
m/s → mph conversion. -/
def mphFactor : ℚ := 2.23694

/-- The `WeatherData.to_dict` method (src/main.py lines 17-27):
`temperature_f = (temperature * 9/5) + 32` and
`wind_speed_mph = wind_speed * 2.23694`; all other columns are the stored
fields unchanged. -/
def to_dict (w : WeatherData) : Row :=
  { city := w.city
    temperature_c := w.temperature
    temperature_f := w.temperature * 9 / 5 + 32
    wind_speed_ms := w.wind_speed
    wind_speed_mph := w.wind_speed * mphFactor
    humidity := w.humidity
    timestamp := w.timestamp }

/-- Value stored in one cell of a `to_dict` dictionary. -/
inductive Val where
  | str (s : String)
  | rat (q : ℚ)
  | time (t : Int)
deriving DecidableEq, Repr

/-- The dictionary returned by `to_dict`, as an ordered association list:
Python dictionaries preserve insertion order, so the key order is exactly
the order of src/main.py lines 20-26. -/
def Row.toAssoc (r : Row) : List (String × Val) :=
  [("city", .str r.city),
   ("temperature_c", .rat r.temperature_c),
   ("temperature_f", .rat r.temperature_f),
   ("wind_speed_ms", .rat r.wind_speed_ms),
   ("wind_speed_mph", .rat r.wind_speed_mph),
   ("humidity", .rat r.humidity),
   ("timestamp", .time r.timestamp)]

/-- The column names of the DataFrame built from `to_dict` rows, in
dictionary insertion order (src/main.py lines 20-26). -/
def rowColumns : List String :=
  ["city", "temperature_c", "temperature_f", "wind_speed_ms",
   "wind_speed_mph", "humidity", "timestamp"]

/-! ### numpy argsort (kind='quicksort'), translated from
npysort/quicksort.c.src (`aquicksort`) and npysort/heapsort.c.src
(`aheapsort`).  The index array `tosort` is a `List Nat` read and written
through `List.getD`/`List.set`; `v` is the (fixed) value array. -/

/-- numpy's SMALL_QUICKSORT threshold: ranges of at most this many
elements (pointer difference) are finished with insertion sort. -/
def SMALL_QUICKSORT : Nat := 15

/-- Fuel-driven helper for `npGetMsb` (structural recursion on the fuel,
which always suffices since `npGetMsb n` passes fuel `n`). -/
def msbAux : Nat → Nat → Nat
  | 0, _ => 0
  | fuel+1, n => if n ≥ 2 then msbAux fuel (n / 2) + 1 else 0

/-- numpy's `npy_get_msb`: the position of the most significant bit,
i.e. floor(log2 n) for n ≥ 1 and 0 for n = 0. -/
def npGetMsb (n : Nat) : Nat := msbAux n n

/-- Swap the entries at positions `i` and `j` of `ts`
(numpy's `INTP_SWAP`). -/
def swapL (ts : List Nat) (i j : Nat) : List Nat :=
  let a := ts.getD i 0
  let b := ts.getD j 0
  (ts.set i b).set j a

/-- Compare the values indexed by the entries of `ts` at positions `i` and
`j`: numpy's `TYPE_LT(v[*pi], v[*pj])` (no NaN can occur over ℚ, so the
NaN clause of `DOUBLE_LT` is dropped). -/
def idxLt (v : List ℚ) (ts : List Nat) (i j : Nat) : Prop :=
  v.getD (ts.getD i 0) 0 < v.getD (ts.getD j 0) 0

instance (v : List ℚ) (ts : List Nat) (i j : Nat) : Decidable (idxLt v ts i j) :=
  inferInstanceAs (Decidable (_ < _))

/-- The C sweep `do ++pi; while (TYPE_LT(v[*pi], vp));` of the Hoare
partition: increment `pi`, then keep incrementing while the indexed value
is below the pivot.  The fuel (always at least the array length plus one
at the call sites) makes the recursion structural; the median-of-3
sentinels guarantee termination inside the range in every actual run. -/
def sweepRight (v : List ℚ) (ts : List Nat) (vp : ℚ) : Nat → Nat → Nat
  | 0, pi => pi
  | fuel+1, pi =>
    let pi1 := pi + 1
    if v.getD (ts.getD pi1 0) 0 < vp then sweepRight v ts vp fuel pi1 else pi1

/-- The C sweep `do --pj; while (TYPE_LT(vp, v[*pj]));`. -/
def sweepLeft (v : List ℚ) (ts : List Nat) (vp : ℚ) : Nat → Nat → Nat
  | 0, pj => pj
  | fuel+1, pj =>
    let pj1 := pj - 1
    if vp < v.getD (ts.getD pj1 0) 0 then sweepLeft v ts vp fuel pj1 else pj1

/-- The partition exchange loop `for (;;) { ...sweeps...; if (pi >= pj)
break; INTP_SWAP(*pi, *pj); }`; returns the final array and `pi`. -/
def partLoop (v : List ℚ) (vp : ℚ) : Nat → List Nat → Nat → Nat → List Nat × Nat
  | 0, ts, pi, _ => (ts, pi)
  | fuel+1, ts, pi, pj =>
    let pi' := sweepRight v ts vp (ts.length + 2) pi
    let pj' := sweepLeft v ts vp (ts.length + 2) pj
    if pi' ≥ pj' then (ts, pi')
    else partLoop v vp fuel (swapL ts pi' pj') pi' pj'

/-- Read the 1-indexed heap cell `a[i]` of `aheapsort`, where
`a = tosort + pl - 1`. -/
def heapGet (ts : List Nat) (pl i : Nat) : Nat := ts.getD (pl + i - 1) 0

/-- Write the 1-indexed heap cell `a[i]` of `aheapsort`. -/
def heapSet (ts : List Nat) (pl i : Nat) (x : Nat) : List Nat :=
  ts.set (pl + i - 1) x

/-- The sift-down loop of numpy's `aheapsort` (both occurrences share this
shape): starting from hole `i` with child `j`, move the larger child up
while it beats `tmp`, then drop `tmp` into the hole. -/
def siftDown (v : List ℚ) (pl n tmp : Nat) :
    Nat → List Nat → Nat → Nat → List Nat
  | 0, ts, i, _ => heapSet ts pl i tmp
  | fuel+1, ts, i, j =>
    if j ≤ n then
      let j := if j < n ∧
          v.getD (heapGet ts pl j) 0 < v.getD (heapGet ts pl (j+1)) 0
        then j + 1 else j
      if v.getD tmp 0 < v.getD (heapGet ts pl j) 0 then
        siftDown v pl n tmp fuel (heapSet ts pl i (heapGet ts pl j)) j (j + j)
      else heapSet ts pl i tmp
    else heapSet ts pl i tmp

/-- The heap construction phase of `aheapsort`: `for (l = n>>1; l > 0; --l)`. -/
def heapBuild (v : List ℚ) (pl n : Nat) : Nat → List Nat → List Nat
  | 0, ts => ts
  | l+1, ts =>
    let tmp := heapGet ts pl (l+1)
    let ts := siftDown v pl n tmp (n+2) ts (l+1) ((l+1) * 2)
    heapBuild v pl n l ts

/-- The extraction phase of `aheapsort`: `for (; n > 1;)` swap the root
with the last element, shrink the heap and sift down. -/
def heapExtract (v : List ℚ) (pl : Nat) : Nat → List Nat → List Nat
  | 0, ts => ts
  | 1, ts => ts
  | m+2, ts =>
    let tmp := heapGet ts pl (m+2)
    let ts := heapSet ts pl (m+2) (heapGet ts pl 1)
    let ts := siftDown v pl (m+1) tmp (m+3) ts 1 2
    heapExtract v pl (m+1) ts

/-- numpy's `aheapsort` applied to the range of `n` entries starting at
position `pl` (the fallback call `aheapsort(vv, pl, pr - pl + 1)`). -/
def aheapsortSeg (v : List ℚ) (ts : List Nat) (pl n : Nat) : List Nat :=
  heapExtract v pl n (heapBuild v pl n (n / 2) ts)

/-- The inner while-loop of the `aquicksort` insertion sort: the sorted
prefix is carried right-end first (`revPrefix`); `while (pj > pl && vp <
v[*pk]) { *pj-- = *pk--; }` shifts the scanned entry right, and `*pj = vi`
drops `vi` at the stop position. -/
def npInsertShift (v : List ℚ) (vi : Nat) : List Nat → List Nat
  | [] => [vi]
  | pk :: ps =>
    if v.getD vi 0 < v.getD pk 0 then pk :: npInsertShift v vi ps
    else vi :: pk :: ps

/-- The outer loop of the `aquicksort` insertion sort: `for (pi = pl + 1;
pi <= pr; ++pi)` inserts each remaining entry into the sorted prefix. -/
def npInsLoop (v : List ℚ) : List Nat → List Nat → List Nat
  | revPrefix, [] => revPrefix.reverse
  | revPrefix, vi :: rest => npInsLoop v (npInsertShift v vi revPrefix) rest

/-- The insertion sort that `aquicksort` runs on a small range, as a
function on the range contents (initial sorted prefix: the first entry). -/
def npInsertionSortList (v : List ℚ) : List Nat → List Nat
  | [] => []
  | p0 :: rest => npInsLoop v [p0] rest

/-- Apply the `aquicksort` insertion sort in place to the range
`[pl, pr]` (inclusive) of `ts`. -/
def insertionSortSegment (v : List ℚ) (ts : List Nat) (pl pr : Nat) :
    List Nat :=
  if pr ≤ pl then ts
  else
    ts.take pl ++ npInsertionSortList v ((ts.drop pl).take (pr + 1 - pl))
      ++ ts.drop (pr + 1)

/-- The main loop of numpy's `aquicksort`: each call is one iteration of
the outer `for (;;)` / inner `while ((pr - pl) > SMALL_QUICKSORT)`
structure.  While the current range is large: on depth exhaustion heapsort
it and pop the next range, otherwise median-of-3 partition it, push the
larger half and continue with the smaller; small ranges are insertion
sorted, then the next pending range is popped.  The fuel bounds the number
of iterations (3n + 3 suffices for every actual run since each partition
strictly splits its range). -/
def qsDriver (v : List ℚ) :
    Nat → List Nat → Nat → Nat → List (Nat × Nat) → Int → List Nat
  | 0, ts, _, _, _, _ => ts
  | fuel+1, ts, pl, pr, stack, depth =>
    if pr - pl > SMALL_QUICKSORT then
      if depth < 0 then
        let ts := aheapsortSeg v ts pl (pr - pl + 1)
        match stack with
        | [] => ts
        | (pl', pr') :: rest => qsDriver v fuel ts pl' pr' rest (depth - 1)
      else
        let pm := pl + (pr - pl) / 2
        let ts := if idxLt v ts pm pl then swapL ts pm pl else ts
        let ts := if idxLt v ts pr pm then swapL ts pr pm else ts
        let ts := if idxLt v ts pm pl then swapL ts pm pl else ts
        let vp := v.getD (ts.getD pm 0) 0
        let ts := swapL ts pm (pr - 1)
        let res := partLoop v vp (ts.length + 2) ts pl (pr - 1)
        let ts := res.1
        let pi := res.2
        let ts := swapL ts pi (pr - 1)
        if pi - pl < pr - pi then
          qsDriver v fuel ts pl (pi - 1) ((pi + 1, pr) :: stack) (depth - 1)
        else
          qsDriver v fuel ts (pi + 1) pr ((pl, pi - 1) :: stack) (depth - 1)
    else
      let ts := insertionSortSegment v ts pl pr
      match stack with
      | [] => ts
      | (pl', pr') :: rest => qsDriver v fuel ts pl' pr' rest depth

/-- `values.argsort(kind='quicksort')`: run `aquicksort` on the identity
index array with numpy's initial depth limit `2 * npy_get_msb(num)`. -/
def npArgsort (v : List ℚ) : List Nat :=
  qsDriver v (3 * v.length + 3) (List.range v.length) 0 (v.length - 1) []
    (2 * npGetMsb v.length : Nat)

/-- pandas `nargsort(values, kind='quicksort', ascending, 'last')` with no
NaN present (pandas/core/sorting.py): ascending order argsorts directly;
descending order reverses the values and the index array, argsorts the
reversed values, maps through the reversed index array and reverses the
resulting indexer. -/
def nargsort (values : List ℚ) (ascending : Bool) : List Nat :=
  if ascending then npArgsort values
  else
    let idxrev := (List.range values.length).reverse
    ((npArgsort values.reverse).map (fun k => idxrev.getD k 0)).reverse

/-- `df.take(indexer)`: the rows of the sorted DataFrame, in indexer
order. -/
def takeRows (rows : List Row) (indexer : List Nat) : List Row :=
  indexer.map (fun i => rows.getD i default)

/-- pandas `df.sort_values(by=col, ascending=...)` for a single numeric
key column, given the key projection: permute the rows by `nargsort` of
the key values. -/
def sortValuesKey (rows : List Row) (key : Row → ℚ) (ascending : Bool) :
    List Row :=
  takeRows rows (nargsort (rows.map key) ascending)

/-- Line 76, `df.sort_values('temperature_c', ascending=False)`: the
"rank by temperature" view. -/
def rank_by_temperature (rows : List Row) : List Row :=
  sortValuesKey rows (fun r => r.temperature_c) false

/-- Line 79, `df.sort_values('humidity')` (ascending default): the
"rank by humidity" view. -/
def rank_by_humidity (rows : List Row) : List Row :=
  sortValuesKey rows (fun r => r.humidity) true

/-! ### DataFrame plumbing, describe(), filtering, and the pipeline -/

/-- The column labels of `pd.DataFrame(data_dicts)`: the union of the
dictionary keys in insertion order, which is `rowColumns` for a non-empty
list of `to_dict` dictionaries and EMPTY for `pd.DataFrame([])` (an empty
DataFrame has no columns at all). -/
def dfColumns (rows : List Row) : List String :=
  if rows.isEmpty then [] else rowColumns

/-- The errors surfaced by the embedded code paths, using the spec's §7
names for the orchestrator errors: `keyError` is pandas' `KeyError` for a
missing column label; `resolution` is the `ValueError` raised by
`get_coordinates` (line 36) when geocoding returns no results (the spec's
`ResolutionError`); `retrieval` stands for a forecast response missing the
expected fields (the spec's `RetrievalError`); `configuration` is the
spec's `ConfigurationError` from the Unit Converter. -/
inductive AppError where
  | keyError (col : String)
  | resolution (city : String)
  | retrieval (city : String)
  | configuration (unitName : String)
deriving DecidableEq, Repr

/-- The numeric key column of a row under a given column label (only ever
applied to the numeric labels that the script sorts or describes by). -/
def colKey (c : String) (r : Row) : ℚ :=
  if c = "temperature_c" then r.temperature_c
  else if c = "temperature_f" then r.temperature_f
  else if c = "wind_speed_ms" then r.wind_speed_ms
  else if c = "wind_speed_mph" then r.wind_speed_mph
  else if c = "humidity" then r.humidity
  else 0

/-- `df.sort_values(col, ascending)` including pandas' label lookup: a
label that is not among the DataFrame's columns raises `KeyError` (which
is what happens on line 76 for `pd.DataFrame([])`, since an empty frame
has no columns). -/
def sort_values (rows : List Row) (col : String) (ascending : Bool) :
    Except AppError (List Row) :=
  if col ∈ dfColumns rows then .ok (sortValuesKey rows (colKey col) ascending)
  else .error (.keyError col)

/-- `df[[c₁, …, cₖ]]`: column projection, raising `KeyError` when one of
the requested labels is missing (pandas reports all missing labels; the
model carries the first).  The projected sub-frame is represented by the
same rows, since every projected column is recoverable from them. -/
def selectColumns (rows : List Row) (cols : List String) :
    Except AppError (List Row) :=
  match cols.find? (fun c => !(dfColumns rows).contains c) with
  | some c => .error (.keyError c)
  | none => .ok rows

/-- Ascending value sort used by the percentile computation (a plain
value sort, so stability is irrelevant: the output is the ordered
multiset). -/
def sortedVals (xs : List ℚ) : List ℚ :=
  List.insertionSort (fun a b : ℚ => a ≤ b) xs

/-- The arithmetic mean of a numeric column (`describe()` row `mean`):
NaN (`none`) on an empty column. -/
def meanQ (xs : List ℚ) : Option ℚ :=
  if xs.length = 0 then none else some (xs.sum / xs.length)

/-- The sample variance with N−1 denominator (ddof = 1).  `describe()`
reports `std`, the real square root of this value; over ℚ the embedding
carries the variance and `std` is NaN (undefined, `none`) exactly when
this is `none`, i.e. when the column has fewer than two entries. -/
def sampleVar (xs : List ℚ) : Option ℚ :=
  if xs.length < 2 then none
  else
    let m := xs.sum / xs.length
    some ((xs.map (fun x => (x - m) ^ 2)).sum / ((xs.length : ℚ) - 1))

/-- numpy's linear-interpolation percentile (`describe()` rows `25%`,
`50%`, `75%`): with the values sorted ascending, the `q`-quantile sits at
fractional rank `h = q * (n - 1)` and is interpolated linearly between the
neighbouring ranks `⌊h⌋` and `⌊h⌋ + 1` (clipped to the last rank). -/
def percentileLinear (xs : List ℚ) (q : ℚ) : Option ℚ :=
  if xs.length = 0 then none
  else
    let s := sortedVals xs
    let n := xs.length
    let h : ℚ := q * ((n : ℚ) - 1)
    let i : ℕ := (⌊h⌋).toNat
    let lo := s.getD i 0
    let hi := s.getD (min (i + 1) (n - 1)) 0
    some (lo + (h - (i : ℚ)) * (hi - lo))

/-- The `describe()` output for one numeric column. -/
structure ColStats where
  count : ℕ
  mean : Option ℚ
  var : Option ℚ
  min : Option ℚ
  q25 : Option ℚ
  q50 : Option ℚ
  q75 : Option ℚ
  max : Option ℚ
deriving DecidableEq, Repr

/-- `Series.describe()` for one numeric column of the DataFrame. -/
def describeCol (xs : List ℚ) : ColStats :=
  { count := xs.length
    mean := meanQ xs
    var := sampleVar xs
    min := (sortedVals xs).head?
    q25 := percentileLinear xs (1/4)
    q50 := percentileLinear xs (1/2)
    q75 := percentileLinear xs (3/4)
    max := (sortedVals xs).getLast? }

/-- The values returned by `process_weather_data` and the views it
computes: the two rankings (lines 76 and 79), the summary statistics of
the three described columns (line 89), and the returned DataFrame `df`
(line 133). -/
structure ProcessOutput where
  df_by_temp : List Row
  df_by_humidity : List Row
  stats : ColStats × ColStats × ColStats
  df : List Row
deriving DecidableEq, Repr

/-- `process_weather_data` (src/main.py lines 67-133): build the
DataFrame from the `to_dict` dictionaries, sort by temperature descending
and by humidity ascending, describe the three numeric columns
`['temperature_c', 'wind_speed_ms', 'humidity']`, and return `df`.  The
print calls, the CSV export and the matplotlib plotting are presentation
side effects with no influence on the returned values and are omitted;
the `KeyError` control flow of the column lookups is kept. -/
def process_weather_data (wd : List WeatherData) :
    Except AppError ProcessOutput :=
  let rows := wd.map to_dict
  match sort_values rows "temperature_c" false with
  | .error e => .error e
  | .ok dfByTemp =>
    match sort_values rows "humidity" true with
    | .error e => .error e
    | .ok dfByHum =>
      match selectColumns rows
          ["temperature_c", "wind_speed_ms", "humidity"] with
      | .error e => .error e
      | .ok sel =>
        .ok ⟨dfByTemp, dfByHum,
          (describeCol (sel.map (fun r => r.temperature_c)),
           describeCol (sel.map (fun r => r.wind_speed_ms)),
           describeCol (sel.map (fun r => r.humidity))), rows⟩

/-- The threshold filter of line 145,
`df[df['temperature_c'] > threshold]`: boolean-mask row selection, which
keeps exactly the rows with `temperature_c` strictly above the threshold,
in their original order, and yields an empty frame (not an error) when no
row qualifies. -/
def warm_cities (rows : List Row) (threshold : ℚ) : List Row :=
  rows.filter (fun r => decide (threshold < r.temperature_c))

/-! ### The fetch orchestrator (src/main.py lines 29-65).  The two HTTP
endpoints are external collaborators; they are modelled as an abstract
environment mapping a city to an optional geocoding result and
coordinates to optional current conditions (`none` standing for a JSON
response without the expected data). -/

/-- A geocoding hit: the first entry of the `results` list. -/
structure GeoResult where
  latitude : ℚ
  longitude : ℚ
deriving DecidableEq, Repr

/-- The `current` object of the forecast response. -/
structure CurrentConditions where
  temperature_2m : ℚ
  relative_humidity_2m : ℚ
  wind_speed_10m : ℚ
  time : Int
deriving DecidableEq, Repr

/-- The network boundary: geocoding and forecast lookups. -/
structure NetworkEnv where
  geocode : String → Option GeoResult
  forecast : ℚ × ℚ → Option CurrentConditions

/-- `get_coordinates` (lines 29-39): no `results` in the geocoding
response raises `ValueError` (the spec's `ResolutionError`) naming the
offending city; otherwise the first result's coordinates are returned. -/
def get_coordinates (env : NetworkEnv) (city : String) :
    Except AppError (ℚ × ℚ) :=
  match env.geocode city with
  | none => .error (.resolution city)
  | some r => .ok (r.latitude, r.longitude)

/-- `get_weather` (lines 41-61): resolve coordinates, fetch the current
conditions and build the `WeatherData` record for the city (a missing
`current` payload surfaces as the spec's `RetrievalError`). -/
def get_weather (env : NetworkEnv) (city : String) :
    Except AppError WeatherData :=
  match get_coordinates env city with
  | .error e => .error e
  | .ok c =>
    match env.forecast c with
    | none => .error (.retrieval city)
    | some cur =>
        .ok ⟨city, cur.temperature_2m, cur.wind_speed_10m,
             cur.relative_humidity_2m, cur.time⟩

/-- `get_weather_multiple_cities` (lines 63-65): the list comprehension
`[get_weather(city) for city in cities]` evaluates sequentially and the
first raised exception aborts the whole comprehension, which is exactly
`mapM` over `Except`. -/
def get_weather_multiple_cities (env : NetworkEnv) (cities : List String) :
    Except AppError (List WeatherData) :=
  cities.mapM (get_weather env)

/-! ### The Unit Converter (spec §4.1).  src/main.py inlines both
conversions inside `to_dict`; the spec describes them as a separate
component, the wind-speed half of which takes a named source unit. -/

/-- The °C → °F conversion of the Unit Converter: the same expression
`(c * 9/5) + 32` that line 22 of src/main.py inlines. -/
def celsius_to_fahrenheit (c : ℚ) : ℚ := c * 9 / 5 + 32

/-- Modelled from the spec: the named-unit wind-speed converter of §4.1
("given a wind speed and a named source unit, returns the value in a
secondary unit via a fixed multiplicative factor; fails with
`ConfigurationError` if an unknown unit name is supplied").  src/main.py
contains no named-unit lookup — it inlines the single m/s → mph factor
2.23694 on line 24 — so the converter is modelled from the spec's words
with this deployment's one supported source unit. -/
def convert_wind_speed (speed : ℚ) (unitName : String) :
    Except AppError ℚ :=
  if unitName = "m/s" then .ok (speed * mphFactor)
  else .error (.configuration unitName)

/-! ### Auxiliary orders and fixtures used by the theorems -/

/-- Index order "value ascending, ties by index": the order in which a
stable ascending argsort emits an initially increasing index array. -/
def lexAsc (v : List ℚ) (i j : Nat) : Prop :=
  v.getD i 0 < v.getD j 0 ∨ (v.getD i 0 = v.getD j 0 ∧ i ≤ j)

/-- Index order "value descending, ties by index". -/
def lexDesc (v : List ℚ) (i j : Nat) : Prop :=
  v.getD j 0 < v.getD i 0 ∨ (v.getD i 0 = v.getD j 0 ∧ i ≤ j)

instance (v : List ℚ) (i j : Nat) : Decidable (lexAsc v i j) := by
  unfold lexAsc; infer_instance

instance (v : List ℚ) (i j : Nat) : Decidable (lexDesc v i j) := by
  unfold lexDesc; infer_instance

instance (v : List ℚ) : DecidableRel (lexAsc v) := fun i j => by
  unfold lexAsc; infer_instance

instance (v : List ℚ) : DecidableRel (lexDesc v) := fun i j => by
  unfold lexDesc; infer_instance

instance (v : List ℚ) : IsTrans Nat (lexAsc v) where
  trans a b c hab hbc := by
    rcases hab with h1 | ⟨h1, h1'⟩ <;> rcases hbc with h2 | ⟨h2, h2'⟩
    · exact .inl (h1.trans h2)
    · exact .inl (h2 ▸ h1)
    · exact .inl (h1 ▸ h2)
    · exact .inr ⟨h1.trans h2, h1'.trans h2'⟩

instance (v : List ℚ) : IsTotal Nat (lexAsc v) where
  total a b := by
    rcases lt_trichotomy (v.getD a 0) (v.getD b 0) with h | h | h
    · exact .inl (.inl h)
    · rcases Nat.le_total a b with h' | h'
      · exact .inl (.inr ⟨h, h'⟩)
      · exact .inr (.inr ⟨h.symm, h'⟩)
    · exact .inr (.inl h)

instance (v : List ℚ) : IsAntisymm Nat (lexAsc v) where
  antisymm a b hab hba := by
    rcases hab with h1 | ⟨h1, h1'⟩ <;> rcases hba with h2 | ⟨h2, h2'⟩
    · exact absurd (h1.trans h2) (lt_irrefl _)
    · exact absurd h1 (h2 ▸ lt_irrefl _)
    · exact absurd h2 (h1 ▸ lt_irrefl _)
    · exact Nat.le_antisymm h1' h2'

instance (v : List ℚ) : IsTrans Nat (lexDesc v) where
  trans a b c hab hbc := by
    rcases hab with h1 | ⟨h1, h1'⟩ <;> rcases hbc with h2 | ⟨h2, h2'⟩
    · exact .inl (h2.trans h1)
    · exact .inl (h2 ▸ h1)
    · exact .inl (h1 ▸ h2)
    · exact .inr ⟨h1.trans h2, h1'.trans h2'⟩

instance (v : List ℚ) : IsTotal Nat (lexDesc v) where
  total a b := by
    rcases lt_trichotomy (v.getD a 0) (v.getD b 0) with h | h | h
    · exact .inr (.inl h)
    · rcases Nat.le_total a b with h' | h'
      · exact .inl (.inr ⟨h, h'⟩)
      · exact .inr (.inr ⟨h.symm, h'⟩)
    · exact .inl (.inl h)

instance (v : List ℚ) : IsAntisymm Nat (lexDesc v) where
  antisymm a b hab hba := by
    rcases hab with h1 | ⟨h1, h1'⟩ <;> rcases hba with h2 | ⟨h2, h2'⟩
    · exact absurd (h1.trans h2) (lt_irrefl _)
    · exact absurd h1 (h2 ▸ lt_irrefl _)
    · exact absurd h2 (h1 ▸ lt_irrefl _)
    · exact Nat.le_antisymm h1' h2'

/-- Shorthand for reading the `i`-th row of a frame. -/
def getR (rows : List Row) (i : Nat) : Row := rows.getD i default

/-- A row with the given city and `temperature_c = 20` (all other cells
zero), for exercising tie handling of the temperature ranking. -/
def tieRow (c : String) : Row := ⟨c, 20, 0, 0, 0, 0, 0⟩

/-- Seventeen rows with identical temperatures and pairwise distinct
cities: one more row than the largest range that numpy's introsort
finishes purely by (stable) insertion sort. -/
def ex17 : List Row :=
  [tieRow "c00", tieRow "c01", tieRow "c02", tieRow "c03", tieRow "c04",
   tieRow "c05", tieRow "c06", tieRow "c07", tieRow "c08", tieRow "c09",
   tieRow "c10", tieRow "c11", tieRow "c12", tieRow "c13", tieRow "c14",
   tieRow "c15", tieRow "c16"]

/-- The spec §8 example row {city: A, temp: 15} (cells not mentioned by
the example are zero). -/
def exRowA : Row := ⟨"A", 15, 0, 0, 0, 0, 0⟩

/-- The spec §8 example row {city: B, temp: 5}. -/
def exRowB : Row := ⟨"B", 5, 0, 0, 0, 0, 0⟩

/-- The spec §8 example row {city: C, temp: 10}. -/
def exRowC : Row := ⟨"C", 10, 0, 0, 0, 0, 0⟩

/-- The spec §8 example table for the threshold filter. -/
def exABC : List Row := [exRowA, exRowB, exRowC]

/-- A three-row table with a temperature tie (cities X and Z both at 5),
for exhibiting stable tie handling on a small table. -/
def exTie : List Row :=
  [⟨"X", 5, 0, 0, 0, 30, 0⟩, ⟨"Y", 9, 0, 0, 0, 30, 0⟩,
   ⟨"Z", 5, 0, 0, 0, 40, 0⟩]

/-- A two-city batch of weather records used as a concrete pipeline
input. -/
def exBatch : List WeatherData :=
  [⟨"London", 15, 4, 70, 100⟩, ⟨"Paris", 18, 3, 60, 200⟩]

/-- A concrete network environment for the orchestrator theorems:
geocoding knows "London" and "Paris" but not "Atlantis", and the forecast
endpoint answers for the two known coordinate pairs. -/
def exEnv : NetworkEnv where
  geocode c :=
    if c = "London" then some ⟨51, 0⟩
    else if c = "Paris" then some ⟨48, 2⟩
    else none
  forecast p :=
    if p = ((51 : ℚ), (0 : ℚ)) then some ⟨15, 70, 4, 100⟩
    else if p = ((48 : ℚ), (2 : ℚ)) then some ⟨18, 60, 3, 200⟩
    else none

/-- The records that `exEnv` yields for its two known cities. -/
def exFetch (c : String) : WeatherData :=
  if c = "London" then ⟨"London", 15, 4, 70, 100⟩
  else if c = "Paris" then ⟨"Paris", 18, 3, 60, 200⟩
  else default

/-! ## Lemmas

First: on ranges of at most 16 indices, `aquicksort` runs exactly its
insertion sort, and that insertion sort is the stable sort — it emits an
initially increasing index array in `lexAsc` order. -/

lemma sorted_reverse_cons_iff {r : Nat → Nat → Prop} {pk : Nat}
    {ps : List Nat} :
    List.Sorted r ((pk :: ps).reverse) ↔
      List.Sorted r ps.reverse ∧ ∀ x ∈ ps, r x pk := by
  simp [List.Sorted, List.reverse_cons, List.pairwise_append]

lemma npInsertShift_spec (v : List ℚ) (vi : Nat) :
    ∀ revPrefix : List Nat,
      List.Sorted (lexAsc v) revPrefix.reverse →
      (∀ p ∈ revPrefix, p < vi) →
      (npInsertShift v vi revPrefix).Perm (vi :: revPrefix) ∧
      List.Sorted (lexAsc v) (npInsertShift v vi revPrefix).reverse := by
  intro revPrefix
  induction revPrefix with
  | nil =>
    intro _ _
    exact ⟨List.Perm.refl _, by simp [npInsertShift]⟩
  | cons pk ps ih =>
    intro hs hlt
    rw [sorted_reverse_cons_iff] at hs
    by_cases h : v.getD vi 0 < v.getD pk 0
    · rw [npInsertShift, if_pos h]
      obtain ⟨ihp, ihs⟩ :=
        ih hs.1 (fun p hp => hlt p (List.mem_cons_of_mem _ hp))
      constructor
      · exact (ihp.cons pk).trans (List.Perm.swap vi pk ps)
      · rw [sorted_reverse_cons_iff]
        refine ⟨ihs, fun x hx => ?_⟩
        rcases List.mem_cons.mp (ihp.mem_iff.mp hx) with rfl | hx'
        · exact .inl h
        · exact hs.2 x hx'
    · rw [npInsertShift, if_neg h]
      refine ⟨List.Perm.refl _, ?_⟩
      have hle : v.getD pk 0 ≤ v.getD vi 0 := le_of_not_lt h
      rw [sorted_reverse_cons_iff]
      refine ⟨by rw [sorted_reverse_cons_iff]; exact hs, fun x hx => ?_⟩
      rcases List.mem_cons.mp hx with rfl | hx'
      · rcases lt_or_eq_of_le hle with hlt' | heq
        · exact .inl hlt'
        · exact .inr ⟨heq, Nat.le_of_lt (hlt x (List.mem_cons_self _ _))⟩
      · rcases hs.2 x hx' with h1 | ⟨h1, _⟩
        · exact .inl (lt_of_lt_of_le h1 hle)
        · rcases lt_or_eq_of_le hle with hlt' | heq
          · exact .inl (h1 ▸ hlt')
          · exact .inr ⟨h1.trans heq,
              Nat.le_of_lt (hlt x (List.mem_cons_of_mem _ hx'))⟩

lemma npInsLoop_spec (v : List ℚ) :
    ∀ rest revPrefix : List Nat,
      List.Sorted (lexAsc v) revPrefix.reverse →
      (∀ p ∈ revPrefix, ∀ q ∈ rest, p < q) →
      List.Pairwise (· < ·) rest →
      (npInsLoop v revPrefix rest).Perm (revPrefix ++ rest) ∧
      List.Sorted (lexAsc v) (npInsLoop v revPrefix rest) := by
  intro rest
  induction rest with
  | nil =>
    intro revPrefix hs _ _
    rw [npInsLoop]
    exact ⟨by simp, hs⟩
  | cons vi rest' ih =>
    intro revPrefix hs hcross hpw
    rw [npInsLoop]
    obtain ⟨sp, ss⟩ := npInsertShift_spec v vi revPrefix hs
      (fun p hp => hcross p hp vi (List.mem_cons_self _ _))
    have hpw' := List.pairwise_cons.mp hpw
    have hcross' : ∀ p ∈ npInsertShift v vi revPrefix, ∀ q ∈ rest', p < q := by
      intro p hp q hq
      rcases List.mem_cons.mp (sp.mem_iff.mp hp) with rfl | hp'
      · exact hpw'.1 q hq
      · exact hcross p hp' q (List.mem_cons_of_mem _ hq)
    obtain ⟨lp, ls⟩ := ih (npInsertShift v vi revPrefix) ss hcross' hpw'.2
    refine ⟨?_, ls⟩
    exact lp.trans ((sp.append_right rest').trans List.perm_middle.symm)

lemma npInsertionSortList_spec (v : List ℚ) (seg : List Nat)
    (hpw : List.Pairwise (· < ·) seg) :
    (npInsertionSortList v seg).Perm seg ∧
    List.Sorted (lexAsc v) (npInsertionSortList v seg) := by
  cases seg with
  | nil => exact ⟨List.Perm.refl _, by simp [npInsertionSortList]⟩
  | cons p0 rest =>
    have h0 := List.pairwise_cons.mp hpw
    have := npInsLoop_spec v rest [p0] (by simp)
      (by intro p hp q hq; rw [List.mem_singleton] at hp; exact hp ▸ h0.1 q hq)
      h0.2
    exact ⟨this.1, this.2⟩

lemma qsDriver_succ_small (v : List ℚ) (fuel : Nat) (ts : List Nat)
    (pl pr : Nat) (depth : Int) (h : ¬ pr - pl > SMALL_QUICKSORT) :
    qsDriver v (fuel + 1) ts pl pr [] depth =
      insertionSortSegment v ts pl pr := by
  rw [qsDriver, if_neg h]

lemma insertionSortSegment_all (v : List ℚ) (n : Nat) :
    insertionSortSegment v (List.range n) 0 (n - 1) =
      npInsertionSortList v (List.range n) := by
  match n with
  | 0 => rfl
  | 1 => rfl
  | n + 2 =>
    rw [insertionSortSegment, if_neg (by omega)]
    have h1 : (List.range (n + 2)).take (n + 2 - 1 + 1 - 0) = List.range (n + 2) :=
      List.take_of_length_le (by simp)
    have h2 : (List.range (n + 2)).drop (n + 2 - 1 + 1) = [] :=
      List.drop_eq_nil_of_le (by simp)
    rw [List.drop_zero, h1, h2]
    simp

lemma npArgsort_small (v : List ℚ) (hlen : v.length ≤ 16) :
    npArgsort v = npInsertionSortList v (List.range v.length) := by
  rw [npArgsort,
    show 3 * v.length + 3 = (3 * v.length + 2) + 1 from rfl,
    qsDriver_succ_small v _ _ _ _ _ (by unfold SMALL_QUICKSORT; omega)]
  exact insertionSortSegment_all v v.length

lemma npArgsort_small_eq (v : List ℚ) (hlen : v.length ≤ 16) :
    npArgsort v = List.insertionSort (lexAsc v) (List.range v.length) := by
  have h2 := npInsertionSortList_spec v (List.range v.length)
    (List.pairwise_lt_range _)
  exact (npArgsort_small v hlen).trans
    (List.eq_of_perm_of_sorted
      (h2.1.trans (List.perm_insertionSort (lexAsc v) _).symm) h2.2
      (List.sorted_insertionSort (lexAsc v) _))

/-! Transport from sorted index lists to sorted row lists. -/

lemma getD_map_key (rows : List Row) (key : Row → ℚ) (i : Nat)
    (hi : i < rows.length) :
    (rows.map key).getD i 0 = key (getR rows i) := by
  rw [List.getD_eq_getElem _ _ (by simpa using hi), List.getElem_map,
      getR, List.getD_eq_getElem _ _ hi]

lemma orderedInsert_map_getR (rows : List Row)
    (idxRel : Nat → Nat → Prop) [DecidableRel idxRel]
    (rowRel : Row → Row → Prop) [DecidableRel rowRel]
    (H : ∀ i j, i < j → j < rows.length →
      (idxRel i j ↔ rowRel (getR rows i) (getR rows j)))
    (i : Nat) :
    ∀ js : List Nat, (∀ j ∈ js, i < j ∧ j < rows.length) →
      (List.orderedInsert idxRel i js).map (getR rows) =
        List.orderedInsert rowRel (getR rows i) (js.map (getR rows)) := by
  intro js
  induction js with
  | nil => intro _; simp
  | cons b rest ihb =>
    intro hb
    have hbi := hb b (List.mem_cons_self _ _)
    simp only [List.orderedInsert, List.map_cons]
    by_cases h : idxRel i b
    · rw [if_pos h, if_pos ((H i b hbi.1 hbi.2).mp h), List.map_cons,
        List.map_cons]
    · rw [if_neg h, if_neg (fun hc => h ((H i b hbi.1 hbi.2).mpr hc)),
        List.map_cons,
        ihb (fun j hj => hb j (List.mem_cons_of_mem _ hj))]

lemma insertionSort_map_getR (rows : List Row)
    (idxRel : Nat → Nat → Prop) [DecidableRel idxRel]
    (rowRel : Row → Row → Prop) [DecidableRel rowRel]
    (H : ∀ i j, i < j → j < rows.length →
      (idxRel i j ↔ rowRel (getR rows i) (getR rows j))) :
    ∀ is : List Nat, List.Pairwise (· < ·) is →
      (∀ j ∈ is, j < rows.length) →
      (List.insertionSort idxRel is).map (getR rows) =
        List.insertionSort rowRel (is.map (getR rows)) := by
  intro is
  induction is with
  | nil => intro _ _; simp
  | cons i rest ih =>
    intro hpw hbnd
    have h1 := List.pairwise_cons.mp hpw
    rw [List.map_cons, List.insertionSort, List.insertionSort,
      ← ih h1.2 (fun j hj => hbnd j (List.mem_cons_of_mem _ hj))]
    exact orderedInsert_map_getR rows idxRel rowRel H i _
      (fun j hj => by
        have hj' := (List.perm_insertionSort idxRel rest).mem_iff.mp hj
        exact ⟨h1.1 j hj', hbnd j (List.mem_cons_of_mem _ hj')⟩)

lemma map_getR_range (rows : List Row) :
    (List.range rows.length).map (getR rows) = rows := by
  apply List.ext_get
  · simp
  · intro n h1 h2
    have h3 : n < rows.length := by simpa using h2
    simp only [List.get_eq_getElem, List.getElem_map, List.getElem_range]
    rw [getR, List.getD_eq_getElem _ _ h3]

lemma sortValuesKey_asc_small (rows : List Row) (key : Row → ℚ)
    (hlen : rows.length ≤ 16) :
    sortValuesKey rows key true =
      List.insertionSort (fun a b => key a ≤ key b) rows := by
  have hv : (rows.map key).length = rows.length := List.length_map _ _
  have H : ∀ i j, i < j → j < rows.length →
      (lexAsc (rows.map key) i j ↔ key (getR rows i) ≤ key (getR rows j)) := by
    intro i j hij hj
    rw [lexAsc, getD_map_key rows key i (hij.trans hj),
      getD_map_key rows key j hj]
    constructor
    · rintro (h | ⟨h, _⟩)
      · exact le_of_lt h
      · exact le_of_eq h
    · intro h
      rcases lt_or_eq_of_le h with h' | h'
      · exact .inl h'
      · exact .inr ⟨h', Nat.le_of_lt hij⟩
  rw [sortValuesKey, nargsort, if_pos rfl,
    npArgsort_small_eq _ (hv ▸ hlen), hv, takeRows]
  have step := insertionSort_map_getR rows (lexAsc (rows.map key))
    (fun a b => key a ≤ key b) H (List.range rows.length)
    (List.pairwise_lt_range _) (fun j hj => List.mem_range.mp hj)
  rw [map_getR_range] at step
  exact step

/-! The descending path: pandas reverses the values and the index array,
argsorts ascending, re-maps and reverses — which turns the stable
ascending argsort into the stable descending one. -/

lemma getD_reverse_q (v : List ℚ) (k : Nat) (hk : k < v.length) :
    v.reverse.getD k 0 = v.getD (v.length - 1 - k) 0 := by
  rw [List.getD_eq_getElem _ _ (by simpa using hk), List.getElem_reverse,
    List.getD_eq_getElem _ _ (by omega)]

lemma range_reverse_getD (n k : Nat) (hk : k < n) :
    ((List.range n).reverse).getD k 0 = n - 1 - k := by
  rw [List.getD_eq_getElem _ _ (by simpa using hk), List.getElem_reverse]
  simp

lemma map_sub_range (n : Nat) :
    (List.range n).map (fun k => n - 1 - k) = (List.range n).reverse := by
  apply List.ext_get
  · simp
  · intro m h1 h2
    simp [List.get_eq_getElem, List.getElem_map, List.getElem_range,
      List.getElem_reverse]

lemma nargsort_desc_small (v : List ℚ) (hlen : v.length ≤ 16) :
    nargsort v false =
      List.insertionSort (lexDesc v) (List.range v.length) := by
  have hv' : v.reverse.length = v.length := List.length_reverse _
  have hA : npArgsort v.reverse =
      List.insertionSort (lexAsc v.reverse) (List.range v.length) := by
    rw [npArgsort_small_eq _ (by rw [hv']; exact hlen), hv']
  have hAmem : ∀ k ∈ List.insertionSort (lexAsc v.reverse)
      (List.range v.length), k < v.length := fun k hk =>
    List.mem_range.mp
      ((List.perm_insertionSort (lexAsc v.reverse) _).mem_iff.mp hk)
  have hg : ∀ k, k < v.length →
      ((List.range v.length).reverse).getD k 0 = v.length - 1 - k :=
    fun k hk => range_reverse_getD _ k hk
  have hAsorted : List.Sorted (lexAsc v.reverse)
      (List.insertionSort (lexAsc v.reverse) (List.range v.length)) :=
    List.sorted_insertionSort _ _
  have hgsorted : List.Sorted (lexDesc v)
      (((List.insertionSort (lexAsc v.reverse) (List.range v.length)).map
        (fun k => ((List.range v.length).reverse).getD k 0)).reverse) := by
    show List.Pairwise (lexDesc v) _
    rw [List.pairwise_reverse, List.pairwise_map]
    refine List.Pairwise.imp_of_mem ?_ hAsorted
    intro k1 k2 hk1 hk2 hr
    have hb1 := hAmem k1 hk1
    have hb2 := hAmem k2 hk2
    have e1 : v.reverse.getD k1 0 = v.getD (v.length - 1 - k1) 0 :=
      getD_reverse_q v k1 hb1
    have e2 : v.reverse.getD k2 0 = v.getD (v.length - 1 - k2) 0 :=
      getD_reverse_q v k2 hb2
    rw [hg k2 hb2, hg k1 hb1]
    rcases hr with h | ⟨h, h'⟩
    · exact .inl (by rw [← e1, ← e2]; exact h)
    · refine .inr ⟨by rw [← e1, ← e2]; exact h.symm, ?_⟩
      exact Nat.sub_le_sub_left h' (v.length - 1)
  have hperm : ((((List.insertionSort (lexAsc v.reverse)
      (List.range v.length)).map
        (fun k => ((List.range v.length).reverse).getD k 0)).reverse)).Perm
      (List.range v.length) := by
    have hmapeq : (List.insertionSort (lexAsc v.reverse)
        (List.range v.length)).map
          (fun k => ((List.range v.length).reverse).getD k 0) =
        (List.insertionSort (lexAsc v.reverse) (List.range v.length)).map
          (fun k => v.length - 1 - k) :=
      List.map_congr_left (fun k hk => hg k (hAmem k hk))
    refine (List.reverse_perm _).trans ?_
    rw [hmapeq]
    refine (((List.perm_insertionSort (lexAsc v.reverse)
      (List.range v.length)).map _).trans ?_)
    rw [map_sub_range]
    exact List.reverse_perm _
  have heq := List.eq_of_perm_of_sorted
    (hperm.trans (List.perm_insertionSort (lexDesc v)
      (List.range v.length)).symm)
    hgsorted (List.sorted_insertionSort (lexDesc v) (List.range v.length))
  rw [nargsort, if_neg (by simp), hA]
  exact heq

lemma sortValuesKey_desc_small (rows : List Row) (key : Row → ℚ)
    (hlen : rows.length ≤ 16) :
    sortValuesKey rows key false =
      List.insertionSort (fun a b => key b ≤ key a) rows := by
  have hv : (rows.map key).length = rows.length := List.length_map _ _
  have H : ∀ i j, i < j → j < rows.length →
      (lexDesc (rows.map key) i j ↔
        key (getR rows j) ≤ key (getR rows i)) := by
    intro i j hij hj
    rw [lexDesc, getD_map_key rows key i (hij.trans hj),
      getD_map_key rows key j hj]
    constructor
    · rintro (h | ⟨h, _⟩)
      · exact le_of_lt h
      · exact le_of_eq h.symm
    · intro h
      rcases lt_or_eq_of_le h with h' | h'
      · exact .inl h'
      · exact .inr ⟨h'.symm, Nat.le_of_lt hij⟩
  rw [sortValuesKey, nargsort_desc_small _ (hv ▸ hlen), hv, takeRows]
  have step := insertionSort_map_getR rows (lexDesc (rows.map key))
    (fun a b => key b ≤ key a) H (List.range rows.length)
    (List.pairwise_lt_range _) (fun j hj => List.mem_range.mp hj)
  rw [map_getR_range] at step
  exact step

/-! ## Claim theorems -/

/-- C1, counterexample.  `ex17` has 17 pairwise-distinct rows, all with
equal `temperature_c`, so a stable descending sort (ties broken by
original input order) must return the table unchanged — as the fourth
conjunct confirms for the stable sort itself.  But
`rank_by_temperature`, i.e. `df.sort_values('temperature_c',
ascending=False)` with pandas' default `kind='quicksort'`, permutes the
tied rows: 17 elements exceed numpy's SMALL_QUICKSORT = 15 insertion-sort
threshold, one Hoare partition pass runs, and its swaps reorder equal
elements.  The final conjunct records the exact resulting city order. -/
theorem rank_by_temperature_unstable_at_17 :
    ex17.map (fun r => r.temperature_c) = List.replicate 17 (20 : ℚ) ∧
    List.Pairwise (fun a b : Row => a.city ≠ b.city) ex17 ∧
    ex17.length = 17 ∧
    List.insertionSort (fun a b => b.temperature_c ≤ a.temperature_c) ex17
      = ex17 ∧
    rank_by_temperature ex17 ≠ ex17 ∧
    (rank_by_temperature ex17).map (fun r => r.city) =
      ["c00", "c09", "c15", "c14", "c13", "c12", "c11", "c10", "c08",
       "c01", "c07", "c06", "c05", "c04", "c03", "c02", "c16"] := by
  refine ⟨by decide, by decide, by decide, by decide, by decide, by decide⟩

/-- C1, as amended: for every non-empty Table of at most 16 rows (numpy's
introsort handles such ranges entirely by its stable insertion sort —
this covers the five-city table the program builds), rank-by-temperature
equals the stable descending sort by `temperature_c` (a permutation of
the input, sorted descending, ties in original input order, city names
unused) and rank-by-humidity equals the stable ascending sort by
`humidity`.  For larger tables pandas' default quicksort gives no such
guarantee (see the counterexample at 17 rows). -/
theorem rank_small_table_stable_sorted (rows : List Row)
    (hne : rows ≠ []) (hlen : rows.length ≤ 16) :
    rank_by_temperature rows =
      List.insertionSort (fun a b => b.temperature_c ≤ a.temperature_c)
        rows ∧
    (rank_by_temperature rows).Perm rows ∧
    List.Sorted (fun a b => b.temperature_c ≤ a.temperature_c)
      (rank_by_temperature rows) ∧
    rank_by_humidity rows =
      List.insertionSort (fun a b => a.humidity ≤ b.humidity) rows ∧
    (rank_by_humidity rows).Perm rows ∧
    List.Sorted (fun a b => a.humidity ≤ b.humidity)
      (rank_by_humidity rows) := by
  have _ := hne
  haveI it : IsTotal Row (fun a b => b.temperature_c ≤ a.temperature_c) :=
    ⟨fun a b => le_total b.temperature_c a.temperature_c⟩
  haveI itr : IsTrans Row (fun a b => b.temperature_c ≤ a.temperature_c) :=
    ⟨fun _ _ _ hab hbc => le_trans hbc hab⟩
  haveI ih : IsTotal Row (fun a b => a.humidity ≤ b.humidity) :=
    ⟨fun a b => le_total a.humidity b.humidity⟩
  haveI ihr : IsTrans Row (fun a b => a.humidity ≤ b.humidity) :=
    ⟨fun _ _ _ hab hbc => le_trans hab hbc⟩
  have ht : rank_by_temperature rows =
      List.insertionSort (fun a b => b.temperature_c ≤ a.temperature_c)
        rows :=
    sortValuesKey_desc_small rows (fun r => r.temperature_c) hlen
  have hh : rank_by_humidity rows =
      List.insertionSort (fun a b => a.humidity ≤ b.humidity) rows :=
    sortValuesKey_asc_small rows (fun r => r.humidity) hlen
  refine ⟨ht, ?_, ?_, hh, ?_, ?_⟩
  · rw [ht]; exact List.perm_insertionSort _ _
  · rw [ht]; exact List.sorted_insertionSort _ _
  · rw [hh]; exact List.perm_insertionSort _ _
  · rw [hh]; exact List.sorted_insertionSort _ _

/-- Helper: on a non-empty record list, `process_weather_data` succeeds
and its output is exactly the normalized table together with the two
rankings and the three column statistics. -/
lemma process_ok_nonempty (wd : List WeatherData) (hne : wd ≠ []) :
    process_weather_data wd =
      .ok ⟨rank_by_temperature (wd.map to_dict),
        rank_by_humidity (wd.map to_dict),
        (describeCol ((wd.map to_dict).map (fun r => r.temperature_c)),
         describeCol ((wd.map to_dict).map (fun r => r.wind_speed_ms)),
         describeCol ((wd.map to_dict).map (fun r => r.humidity))),
        wd.map to_dict⟩ := by
  have hrows : (wd.map to_dict).isEmpty = false := by
    rw [Bool.eq_false_iff]
    intro hc
    exact hne (by simpa [List.map_eq_nil_iff] using List.isEmpty_iff.mp hc)
  have hcols : dfColumns (wd.map to_dict) = rowColumns := by
    rw [dfColumns, hrows]
    rfl
  have hkeyT : colKey "temperature_c" = fun r : Row => r.temperature_c := by
    funext r
    rw [colKey, if_pos rfl]
  have hkeyH : colKey "humidity" = fun r : Row => r.humidity := by
    funext r
    rw [colKey, if_neg (by decide), if_neg (by decide), if_neg (by decide),
      if_neg (by decide), if_pos rfl]
  have h1 : sort_values (wd.map to_dict) "temperature_c" false =
      .ok (rank_by_temperature (wd.map to_dict)) := by
    rw [sort_values, if_pos (by rw [hcols]; decide), rank_by_temperature,
      hkeyT]
  have h2 : sort_values (wd.map to_dict) "humidity" true =
      .ok (rank_by_humidity (wd.map to_dict)) := by
    rw [sort_values, if_pos (by rw [hcols]; decide), rank_by_humidity, hkeyH]
  have h3 : selectColumns (wd.map to_dict)
      ["temperature_c", "wind_speed_ms", "humidity"] =
      .ok (wd.map to_dict) := by
    rw [selectColumns]
    have : List.find?
        (fun c => !(dfColumns (wd.map to_dict)).contains c)
        ["temperature_c", "wind_speed_ms", "humidity"] = none := by
      rw [hcols]
      decide
    rw [this]
  rw [process_weather_data, h1, h2, h3]

/-- C1, witness: the amended theorem applied to the concrete three-row
table `exTie`, which contains a temperature tie. -/
theorem rank_small_table_stable_sorted_witness :
    exTie ≠ [] ∧ exTie.length ≤ 16 ∧
    (rank_by_temperature exTie =
      List.insertionSort (fun a b => b.temperature_c ≤ a.temperature_c)
        exTie ∧
    (rank_by_temperature exTie).Perm exTie ∧
    List.Sorted (fun a b => b.temperature_c ≤ a.temperature_c)
      (rank_by_temperature exTie) ∧
    rank_by_humidity exTie =
      List.insertionSort (fun a b => a.humidity ≤ b.humidity) exTie ∧
    (rank_by_humidity exTie).Perm exTie ∧
    List.Sorted (fun a b => a.humidity ≤ b.humidity)
      (rank_by_humidity exTie)) :=
  ⟨by decide, by decide,
    rank_small_table_stable_sorted exTie (by decide) (by decide)⟩

/-- C2, counterexample: on zero Weather Records the pipeline raises
instead of reporting undefined statistics — `pd.DataFrame([])` has no
columns, so line 76 (`df.sort_values('temperature_c', ...)`), reached
before the describe() call, fails with `KeyError('temperature_c')`. -/
theorem summary_on_empty_raises :
    process_weather_data [] = .error (.keyError "temperature_c") := rfl

/-- C2, as amended: computing summary statistics on an empty Table (zero
Weather Records) does NOT yield undefined statistics without error: the
DataFrame built from an empty record list has no columns, so the pipeline
raises `KeyError('temperature_c')` at the sort on line 76, and even the
column selection `df[['temperature_c', 'wind_speed_ms', 'humidity']]` of
line 89 would raise the same way.  The describe semantics itself, applied
to an empty column, yields count 0 and every other statistic undefined. -/
theorem summary_on_empty_table :
    process_weather_data [] = .error (.keyError "temperature_c") ∧
    selectColumns ([] : List Row)
      ["temperature_c", "wind_speed_ms", "humidity"] =
      .error (.keyError "temperature_c") ∧
    describeCol [] = ⟨0, none, none, none, none, none, none, none⟩ :=
  ⟨rfl, rfl, by decide⟩

/-- C4: the threshold filter returns exactly the rows with
`temperature_c` strictly greater than the threshold, as a subsequence of
the input (original order preserved); an all-filtered-out result is the
empty list, not an error; and on the spec's example rows (temperatures
15, 5, 10) threshold 10 keeps exactly the first row while threshold 4
keeps all three in original order. -/
theorem threshold_filter_exact :
    (∀ (rows : List Row) (t : ℚ),
      (warm_cities rows t).Sublist rows ∧
      (∀ r, r ∈ warm_cities rows t ↔ r ∈ rows ∧ t < r.temperature_c) ∧
      ((∀ r ∈ rows, r.temperature_c ≤ t) → warm_cities rows t = [])) ∧
    warm_cities exABC 10 = [exRowA] ∧
    warm_cities exABC 4 = exABC := by
  refine ⟨fun rows t => ⟨List.filter_sublist _, ?_, ?_⟩, by decide, by decide⟩
  · intro r
    simp [warm_cities, List.mem_filter]
  · intro h
    rw [warm_cities, List.filter_eq_nil_iff]
    intro a ha
    simpa using not_lt.mpr (h a ha)

/-- C4, witness: the empty-result branch of the theorem at threshold 20
on the example rows, where every temperature is at most 20. -/
theorem threshold_filter_exact_witness :
    (∀ r ∈ exABC, r.temperature_c ≤ 20) ∧ warm_cities exABC 20 = [] :=
  ⟨by decide, (threshold_filter_exact.1 exABC 20).2.2 (by decide)⟩

/-- C6: the Fahrenheit conversion is exactly `c * 9/5 + 32` (a total
function of the input, no error conditions), both as the Unit Converter
map and as the derived `temperature_f` column of `to_dict`; 0 °C gives
32, 100 °C gives 212, and −40 °C gives −40 (the fixed point).  Python
floats are embedded as exact rationals; all three cited values are also
exact in IEEE binary floating point. -/
theorem fahrenheit_conversion :
    (∀ c : ℚ, celsius_to_fahrenheit c = c * 9 / 5 + 32) ∧
    (∀ w : WeatherData,
      (to_dict w).temperature_f = w.temperature * 9 / 5 + 32) ∧
    celsius_to_fahrenheit 0 = 32 ∧
    celsius_to_fahrenheit 100 = 212 ∧
    celsius_to_fahrenheit (-40) = -40 :=
  ⟨fun _ => rfl, fun _ => rfl, by norm_num [celsius_to_fahrenheit],
    by norm_num [celsius_to_fahrenheit], by norm_num [celsius_to_fahrenheit]⟩

/-- C7, counterexample: the normalized row's column names, in dictionary
order, are exactly `rowColumns`; the humidity column is named bare
"humidity" — it does not carry its percent unit (no "humidity_percent"
column exists), contradicting the claim that the humidity column name
carries its unit. -/
theorem humidity_column_lacks_unit :
    (to_dict ⟨"X", 1, 2, 3, 4⟩).toAssoc.map Prod.fst = rowColumns ∧
    "humidity" ∈ rowColumns ∧
    "humidity_percent" ∉ rowColumns :=
  ⟨rfl, by decide, by decide⟩

/-- C7, as amended: normalize maps each Weather Record to a flat row with
columns city, temperature_c, temperature_f, wind_speed_ms (the primary
wind speed in its native m/s unit), wind_speed_mph (the converted
secondary unit), humidity, timestamp — in that order, with the stored and
derived values shown; both wind-speed column names are unit-suffixed and
no bare "wind_speed" column exists, but the humidity column is named bare
"humidity", without a unit suffix. -/
theorem normalize_columns (w : WeatherData) :
    (to_dict w).toAssoc =
      [("city", .str w.city),
       ("temperature_c", .rat w.temperature),
       ("temperature_f", .rat (w.temperature * 9 / 5 + 32)),
       ("wind_speed_ms", .rat w.wind_speed),
       ("wind_speed_mph", .rat (w.wind_speed * mphFactor)),
       ("humidity", .rat w.humidity),
       ("timestamp", .time w.timestamp)] ∧
    (to_dict w).toAssoc.map Prod.fst = rowColumns ∧
    "wind_speed" ∉ rowColumns ∧
    "wind_speed_ms" ∈ rowColumns ∧ "wind_speed_mph" ∈ rowColumns ∧
    "humidity" ∈ rowColumns :=
  ⟨rfl, rfl, by decide, by decide, by decide, by decide⟩

/-- C8: normalizing a Weather Record and reading back the derived
columns reproduces the Unit Converter's pure-function outputs exactly —
`temperature_f` is `celsius_to_fahrenheit` of the stored temperature and
`wind_speed_mph` is the m/s → mph conversion of the stored wind speed —
while the stored fields are carried through unchanged, so every derived
field is a pure function of the record's stored fields and is never
persisted independently. -/
theorem normalize_roundtrip (w : WeatherData) :
    (to_dict w).temperature_f = celsius_to_fahrenheit w.temperature ∧
    convert_wind_speed w.wind_speed "m/s" =
      .ok ((to_dict w).wind_speed_mph) ∧
    (to_dict w).temperature_c = w.temperature ∧
    (to_dict w).wind_speed_ms = w.wind_speed ∧
    (to_dict w).humidity = w.humidity ∧
    (to_dict w).timestamp = w.timestamp :=
  ⟨rfl, by rw [convert_wind_speed, if_pos rfl]; rfl, rfl, rfl, rfl, rfl⟩

/-- Helper: the only error `sort_values` can produce is a `KeyError` for
the requested column. -/
lemma sort_values_error_shape {rows : List Row} {col : String} {asc : Bool}
    {e : AppError} (h : sort_values rows col asc = .error e) :
    e = .keyError col := by
  rw [sort_values] at h
  by_cases hc : col ∈ dfColumns rows
  · rw [if_pos hc] at h
    exact absurd h (by simp)
  · rw [if_neg hc] at h
    injection h with h'
    exact h'.symm

/-- Helper: the only error `selectColumns` can produce is a `KeyError`
for one of the requested columns. -/
lemma selectColumns_error_shape {rows : List Row} {cols : List String}
    {e : AppError} (h : selectColumns rows cols = .error e) :
    ∃ c, e = .keyError c := by
  rw [selectColumns] at h
  cases hf : List.find? (fun c => !(dfColumns rows).contains c) cols with
  | none =>
    rw [hf] at h
    exact absurd h (by simp)
  | some c =>
    rw [hf] at h
    have h' : Except.error (ε := AppError) (α := List Row)
        (.keyError c) = .error e := h
    injection h' with h''
    exact ⟨c, h''.symm⟩

/-- Helper: every error produced by `process_weather_data` is a
`KeyError` from a column lookup. -/
lemma process_error_shape (wd : List WeatherData) {e : AppError}
    (h : process_weather_data wd = .error e) : ∃ c, e = .keyError c := by
  rw [process_weather_data] at h
  cases h1 : sort_values (wd.map to_dict) "temperature_c" false with
  | error e1 =>
    simp only [h1, Except.error.injEq] at h
    exact ⟨"temperature_c", h ▸ sort_values_error_shape h1⟩
  | ok l1 =>
    cases h2 : sort_values (wd.map to_dict) "humidity" true with
    | error e2 =>
      simp only [h1, h2, Except.error.injEq] at h
      exact ⟨"humidity", h ▸ sort_values_error_shape h2⟩
    | ok l2 =>
      cases h3 : selectColumns (wd.map to_dict)
          ["temperature_c", "wind_speed_ms", "humidity"] with
      | error e3 =>
        simp only [h1, h2, h3, Except.error.injEq] at h
        obtain ⟨c, hc⟩ := selectColumns_error_shape h3
        exact ⟨c, h ▸ hc⟩
      | ok l3 =>
        simp only [h1, h2, h3] at h
        exact Except.noConfusion h

/-- C9: the wind-speed unit conversion multiplies by the fixed factor
2.23694 for the supported source unit "m/s" (reproducing exactly the
`wind_speed_mph` column that `to_dict` derives), fails with
`ConfigurationError` naming the unit for every other unit name, and no
pipeline operation other than the converter ever surfaces a
`ConfigurationError` — every `process_weather_data` error is a column
`KeyError`. -/
theorem unit_converter_config_error :
    (∀ s : ℚ, convert_wind_speed s "m/s" = .ok (s * 2.23694)) ∧
    (∀ (s : ℚ) (u : String), u ≠ "m/s" →
      convert_wind_speed s u = .error (.configuration u)) ∧
    (∀ w : WeatherData, convert_wind_speed w.wind_speed "m/s" =
      .ok ((to_dict w).wind_speed_mph)) ∧
    (∀ (wd : List WeatherData) (e : AppError),
      process_weather_data wd = .error e →
      ∀ u, e ≠ .configuration u) := by
  refine ⟨fun s => by rw [convert_wind_speed, if_pos rfl]; rfl,
    fun s u hu => by rw [convert_wind_speed, if_neg hu],
    fun w => by rw [convert_wind_speed, if_pos rfl]; rfl,
    fun wd e h u => ?_⟩
  obtain ⟨c, rfl⟩ := process_error_shape wd h
  intro hcontra
  exact AppError.noConfusion hcontra

/-- C9, witness: the theorem applied to the concrete unknown unit "km/h"
(with wind speed 10) and to the error produced by the pipeline on an
empty record list. -/
theorem unit_converter_config_error_witness :
    ("km/h" ≠ "m/s" ∧
      convert_wind_speed 10 "km/h" = .error (.configuration "km/h")) ∧
    (process_weather_data [] = .error (.keyError "temperature_c") ∧
      AppError.keyError "temperature_c" ≠ .configuration "m/s") :=
  ⟨⟨by decide, unit_converter_config_error.2.1 10 "km/h" (by decide)⟩,
   ⟨rfl, unit_converter_config_error.2.2.2 [] _ rfl "m/s"⟩⟩

/-- C10: whenever `process_weather_data` returns a table to its caller,
that table is exactly the normalized table — the `to_dict` rows in
original insertion order, one row per input record (row `i` is the
normalization of record `i`) — and the two rankings it computed
internally are separate views derived from that table, which they do not
alter. -/
theorem process_returns_normalized_table (wd : List WeatherData)
    (out : ProcessOutput) (h : process_weather_data wd = .ok out) :
    out.df = wd.map to_dict ∧
    out.df.length = wd.length ∧
    (∀ i, i < wd.length → getR out.df i = to_dict (wd.getD i default)) ∧
    out.df_by_temp = rank_by_temperature out.df ∧
    out.df_by_humidity = rank_by_humidity out.df := by
  cases wd with
  | nil =>
    have he : process_weather_data ([] : List WeatherData) =
        .error (.keyError "temperature_c") := rfl
    rw [he] at h
    exact Except.noConfusion h
  | cons w ws =>
    have hp := process_ok_nonempty (w :: ws) (by simp)
    rw [hp] at h
    injection h with h'
    subst h'
    refine ⟨rfl, by simp, ?_, rfl, rfl⟩
    intro i hi
    rw [getR, List.getD_eq_getElem _ _ (by simpa using hi),
      List.getElem_map, List.getD_eq_getElem _ _ hi]

/-- C10, witness: the theorem applied to the concrete two-record batch
`exBatch`, on which the pipeline succeeds. -/
theorem process_returns_normalized_table_witness :
    ∃ out, process_weather_data exBatch = Except.ok out ∧
      out.df = exBatch.map to_dict ∧ out.df.length = exBatch.length := by
  have hp := process_ok_nonempty exBatch (by decide)
  have hthm := process_returns_normalized_table exBatch _ hp
  exact ⟨_, hp, hthm.1, hthm.2.1⟩

/-- Helper: `mapM` over `Except` succeeds element-wise when every call
succeeds. -/
lemma exceptMapM_all_ok {α β ε : Type} (f : α → Except ε β) (g : α → β) :
    ∀ l : List α, (∀ c ∈ l, f c = .ok (g c)) →
      l.mapM f = .ok (l.map g) := by
  intro l
  induction l with
  | nil => intro _; rfl
  | cons a t ih =>
    intro h
    rw [List.mapM_cons, h a (List.mem_cons_self _ _),
      ih (fun c hc => h c (List.mem_cons_of_mem _ hc))]
    rfl

/-- Helper: a successful `mapM` over `Except` returns one output per
input. -/
lemma exceptMapM_ok_length {α β ε : Type} (f : α → Except ε β) :
    ∀ (l : List α) (ws : List β), l.mapM f = .ok ws →
      ws.length = l.length := by
  intro l
  induction l with
  | nil =>
    intro ws h
    rw [List.mapM_nil] at h
    have h' : Except.ok ([] : List β) = Except.ok ws := h
    injection h' with h''
    rw [← h'']
    rfl
  | cons a t ih =>
    intro ws h
    rw [List.mapM_cons] at h
    cases hfa : f a with
    | error e =>
      rw [hfa] at h
      exact Except.noConfusion h
    | ok b =>
      rw [hfa] at h
      cases hmt : t.mapM f with
      | error e =>
        rw [hmt] at h
        exact Except.noConfusion h
      | ok bs =>
        rw [hmt] at h
        have h' : Except.ok (b :: bs) = Except.ok ws := h
        injection h' with h''
        rw [← h'']
        simp [ih bs hmt]

/-- Helper: `mapM` over `Except` surfaces the first failing element's
error, producing no list at all. -/
lemma exceptMapM_first_error {α β ε : Type} (f : α → Except ε β) (e : ε) :
    ∀ (pre post : List α) (bad : α), f bad = .error e →
      (∀ c ∈ pre, ∃ w, f c = .ok w) →
      (pre ++ bad :: post).mapM f = .error e := by
  intro pre
  induction pre with
  | nil =>
    intro post bad hbad _
    rw [List.nil_append, List.mapM_cons, hbad]
    rfl
  | cons a t ih =>
    intro post bad hbad hok
    obtain ⟨w, hw⟩ := hok a (List.mem_cons_self _ _)
    rw [List.cons_append, List.mapM_cons, hw,
      ih post bad hbad (fun c hc => hok c (List.mem_cons_of_mem _ hc))]
    rfl

/-- C5: the Fetch Orchestrator.  When every city's fetch succeeds,
`get_weather_multiple_cities` returns exactly one Weather Record per city
in input order (each record carrying its requested city name); a
successful batch always has one record per input city; a city with no
geocoding result makes `get_coordinates` raise the resolution error
(`ValueError`, the spec's `ResolutionError`) naming that city; and any
batch containing such a failing city — whatever follows it — aborts with
that first failure and produces zero Weather Records (an `error`, not a
partial list). -/
theorem orchestrator_fail_fast :
    (∀ (env : NetworkEnv) (city : String) (w : WeatherData),
      get_weather env city = .ok w → w.city = city) ∧
    (∀ (env : NetworkEnv) (cities : List String)
      (f : String → WeatherData),
      (∀ c ∈ cities, get_weather env c = .ok (f c)) →
      get_weather_multiple_cities env cities = .ok (cities.map f)) ∧
    (∀ (env : NetworkEnv) (cities : List String) (ws : List WeatherData),
      get_weather_multiple_cities env cities = .ok ws →
      ws.length = cities.length) ∧
    (∀ (env : NetworkEnv) (city : String), env.geocode city = none →
      get_coordinates env city = .error (.resolution city)) ∧
    (∀ (env : NetworkEnv) (pre post : List String) (bad : String),
      env.geocode bad = none →
      (∀ c ∈ pre, ∃ w, get_weather env c = .ok w) →
      get_weather_multiple_cities env (pre ++ bad :: post) =
        .error (.resolution bad)) := by
  have hcoord : ∀ (env : NetworkEnv) (city : String),
      env.geocode city = none →
      get_coordinates env city = .error (.resolution city) := by
    intro env city h
    rw [get_coordinates, h]
  refine ⟨?_, ?_, ?_, hcoord, ?_⟩
  · intro env city w h
    rw [get_weather] at h
    cases h1 : get_coordinates env city with
    | error e =>
      simp only [h1] at h
      exact Except.noConfusion h
    | ok c =>
      simp only [h1] at h
      cases h2 : env.forecast c with
      | none =>
        simp only [h2] at h
        exact Except.noConfusion h
      | some cur =>
        simp only [h2, Except.ok.injEq] at h
        rw [← h]
  · intro env cities f h
    exact exceptMapM_all_ok _ f cities h
  · intro env cities ws h
    exact exceptMapM_ok_length _ cities ws h
  · intro env pre post bad hb hok
    rw [get_weather_multiple_cities]
    refine exceptMapM_first_error _ _ pre post bad ?_ hok
    have hc := hcoord env bad hb
    rw [get_weather, hc]

/-- C5, witness: the theorem applied to the concrete environment
`exEnv`: the all-succeed batch ["London", "Paris"] yields both records
in order, and inserting the unresolvable city "Atlantis" aborts the
batch with its resolution error. -/
theorem orchestrator_fail_fast_witness :
    (∀ c ∈ ["London", "Paris"], get_weather exEnv c = .ok (exFetch c)) ∧
    get_weather_multiple_cities exEnv ["London", "Paris"] =
      .ok (["London", "Paris"].map exFetch) ∧
    exEnv.geocode "Atlantis" = none ∧
    get_weather_multiple_cities exEnv
      (["London"] ++ "Atlantis" :: ["Paris"]) =
      .error (.resolution "Atlantis") := by
  have hall : ∀ c ∈ ["London", "Paris"],
      get_weather exEnv c = .ok (exFetch c) := by decide
  have hok : ∀ c ∈ (["London"] : List String),
      ∃ w, get_weather exEnv c = .ok w := by
    intro c hc
    rw [List.mem_singleton] at hc
    subst hc
    exact ⟨exFetch "London", hall "London" (by decide)⟩
  exact ⟨hall, orchestrator_fail_fast.2.1 exEnv _ exFetch hall, rfl,
    orchestrator_fail_fast.2.2.2.2 exEnv ["London"] ["Paris"] "Atlantis"
      rfl hok⟩

/-- Helper: the value sort used by describe() is a permutation of the
column. -/
lemma sortedVals_perm (xs : List ℚ) : (sortedVals xs).Perm xs :=
  List.perm_insertionSort _ _

/-- Helper: the value sort used by describe() is sorted ascending. -/
lemma sortedVals_sorted (xs : List ℚ) :
    List.Sorted (fun a b : ℚ => a ≤ b) (sortedVals xs) :=
  List.sorted_insertionSort _ _

/-- Helper: describe()'s `min` is a member of the column and a lower
bound for it. -/
lemma describe_min_spec (xs : List ℚ) (hne : xs ≠ []) :
    ∃ a, (describeCol xs).min = some a ∧ a ∈ xs ∧ ∀ y ∈ xs, a ≤ y := by
  have hs := sortedVals_sorted xs
  have hp := sortedVals_perm xs
  cases hsv : sortedVals xs with
  | nil => exact absurd ((hsv ▸ hp).symm.eq_nil) hne
  | cons a t =>
    refine ⟨a, ?_, ?_, ?_⟩
    · show (sortedVals xs).head? = some a
      rw [hsv]
      rfl
    · exact hp.mem_iff.mp (by rw [hsv]; exact List.mem_cons_self _ _)
    · intro y hy
      have hy' : y ∈ a :: t := by rw [← hsv]; exact hp.mem_iff.mpr hy
      rcases List.mem_cons.mp hy' with rfl | hy''
      · exact le_refl _
      · exact (List.sorted_cons.mp (hsv ▸ hs)).1 y hy''

/-- Helper: describe()'s `max` is a member of the column and an upper
bound for it. -/
lemma describe_max_spec (xs : List ℚ) (hne : xs ≠ []) :
    ∃ b, (describeCol xs).max = some b ∧ b ∈ xs ∧ ∀ y ∈ xs, y ≤ b := by
  have hs := sortedVals_sorted xs
  have hp := sortedVals_perm xs
  have hsr : List.Sorted (fun a b : ℚ => b ≤ a) (sortedVals xs).reverse := by
    show List.Pairwise _ _
    rw [List.pairwise_reverse]
    exact hs
  cases hsv : (sortedVals xs).reverse with
  | nil =>
    have h0 : sortedVals xs = [] := List.reverse_eq_nil_iff.mp hsv
    exact absurd ((h0 ▸ hp).symm.eq_nil) hne
  | cons b t =>
    refine ⟨b, ?_, ?_, ?_⟩
    · show (sortedVals xs).getLast? = some b
      rw [← List.head?_reverse, hsv]
      rfl
    · refine hp.mem_iff.mp (List.mem_reverse.mp ?_)
      rw [hsv]
      exact List.mem_cons_self _ _
    · intro y hy
      have hy' : y ∈ b :: t := by
        rw [← hsv]
        exact List.mem_reverse.mpr (hp.mem_iff.mpr hy)
      rcases List.mem_cons.mp hy' with rfl | hy''
      · exact le_refl _
      · exact (List.sorted_cons.mp (hsv ▸ hsr)).1 y hy''

/-- Helper: describe() of a one-element column: count 1, mean = the
value, std undefined, and min = quartiles = max = the value. -/
lemma describeCol_single (a : ℚ) :
    describeCol [a] = ⟨1, some a, none, some a, some a, some a, some a,
      some a⟩ := by
  have hsv : sortedVals [a] = [a] := rfl
  simp only [describeCol, meanQ, sampleVar, percentileLinear, hsv,
    List.length_cons, List.length_nil]
  norm_num

/-- Helper: describe() of a sorted two-element column interpolates the
quartiles linearly between the two ranks. -/
lemma describeCol_pair (a b : ℚ) (hab : a ≤ b) :
    (describeCol [a, b]).q25 = some ((3 * a + b) / 4) ∧
    (describeCol [a, b]).q50 = some ((a + b) / 2) ∧
    (describeCol [a, b]).q75 = some ((a + 3 * b) / 4) := by
  have hsv : sortedVals [a, b] = [a, b] := by
    simp [sortedVals, List.insertionSort, List.orderedInsert, if_pos hab]
  refine ⟨?_, ?_, ?_⟩ <;>
  · show percentileLinear [a, b] _ = _
    simp only [percentileLinear, hsv, List.length_cons, List.length_nil]
    norm_num [Int.floor_eq_zero_iff]
    ring

/-- C3: `describe()` computes, for a column of values: `count` = the
number of values; the arithmetic mean (`mean * count` = the column sum);
the sample standard deviation with N−1 denominator — undefined exactly
when count < 2, and otherwise its square times (count − 1) is the sum of
squared deviations from the mean; `min`/`max` = the least/greatest member
of the column; linearly interpolated quartiles (on a single value all
three equal it; on a sorted pair they interpolate at 1/4, 1/2, 3/4
between the two ranks).  On a single-row table mean = the value, std is
undefined, min = quartiles = max = the value.  These are exactly the
statistics `process_weather_data` computes for `temperature_c` (the
temperature column), `wind_speed_ms` (the primary wind-speed column) and
`humidity`. -/
theorem describe_statistics (xs : List ℚ) (hne : xs ≠ []) :
    (describeCol xs).count = xs.length ∧
    (∃ m, (describeCol xs).mean = some m ∧ m * xs.length = xs.sum) ∧
    ((describeCol xs).var = none ↔ xs.length < 2) ∧
    (∀ vv, (describeCol xs).var = some vv →
      vv * ((xs.length : ℚ) - 1) =
        (xs.map (fun x => (x - xs.sum / xs.length) ^ 2)).sum) ∧
    (∃ a, (describeCol xs).min = some a ∧ a ∈ xs ∧ ∀ y ∈ xs, a ≤ y) ∧
    (∃ b, (describeCol xs).max = some b ∧ b ∈ xs ∧ ∀ y ∈ xs, y ≤ b) ∧
    (∀ a : ℚ, describeCol [a] =
      ⟨1, some a, none, some a, some a, some a, some a, some a⟩) ∧
    (∀ a b : ℚ, a ≤ b →
      (describeCol [a, b]).q25 = some ((3 * a + b) / 4) ∧
      (describeCol [a, b]).q50 = some ((a + b) / 2) ∧
      (describeCol [a, b]).q75 = some ((a + 3 * b) / 4)) ∧
    (∀ (wd : List WeatherData) (out : ProcessOutput),
      process_weather_data wd = .ok out →
      out.stats =
        (describeCol (out.df.map (fun r => r.temperature_c)),
         describeCol (out.df.map (fun r => r.wind_speed_ms)),
         describeCol (out.df.map (fun r => r.humidity)))) := by
  have hlen : (xs.length : ℚ) ≠ 0 := by
    rw [Nat.cast_ne_zero, ← Nat.pos_iff_ne_zero]
    exact List.length_pos.mpr hne
  refine ⟨rfl, ?_, ?_, ?_, describe_min_spec xs hne, describe_max_spec xs hne,
    describeCol_single, describeCol_pair, ?_⟩
  · refine ⟨xs.sum / xs.length, ?_, div_mul_cancel₀ _ hlen⟩
    show meanQ xs = _
    rw [meanQ, if_neg (fun hc => hne (List.length_eq_zero.mp hc))]
  · show sampleVar xs = none ↔ xs.length < 2
    by_cases hl : xs.length < 2
    · rw [sampleVar, if_pos hl]
      simp [hl]
    · rw [sampleVar, if_neg hl]
      simp [hl]
  · intro vv hvv
    have hl : ¬ xs.length < 2 := by
      intro hc
      rw [show (describeCol xs).var = sampleVar xs from rfl, sampleVar,
        if_pos hc] at hvv
      exact Option.noConfusion hvv
    rw [show (describeCol xs).var = sampleVar xs from rfl, sampleVar,
      if_neg hl] at hvv
    injection hvv with hvv'
    rw [← hvv']
    have h2 : ((xs.length : ℚ) - 1) ≠ 0 := by
      have : (2 : ℚ) ≤ (xs.length : ℚ) := by
        exact_mod_cast Nat.not_lt.mp hl
      intro hc
      rw [sub_eq_zero] at hc
      rw [hc] at this
      norm_num at this
    exact div_mul_cancel₀ _ h2
  · intro wd out h
    cases wd with
    | nil =>
      have he : process_weather_data ([] : List WeatherData) =
          .error (.keyError "temperature_c") := rfl
      rw [he] at h
      exact Except.noConfusion h
    | cons w ws =>
      rw [process_ok_nonempty (w :: ws) (by simp)] at h
      injection h with h'
      rw [← h']

/-- C3, witness: the theorem applied to the concrete non-empty column
[15, 5, 10]. -/
theorem describe_statistics_witness :
    ([15, 5, 10] : List ℚ) ≠ [] ∧
    (describeCol [15, 5, 10]).count = ([15, 5, 10] : List ℚ).length ∧
    (∃ m, (describeCol [15, 5, 10]).mean = some m ∧
      m * (([15, 5, 10] : List ℚ).length : ℚ) = ([15, 5, 10] : List ℚ).sum) ∧
    (∃ a, (describeCol [15, 5, 10]).min = some a ∧ a ∈ ([15, 5, 10] : List ℚ) ∧
      ∀ y ∈ ([15, 5, 10] : List ℚ), a ≤ y) := by
  have h := describe_statistics [15, 5, 10] (by decide)
  exact ⟨by decide, h.1, h.2.1, h.2.2.2.2.1⟩

end WeatherApi
